import Mathlib

/-!
Shallow embedding of the mafia-game server core (client registry, game
engine, server facade) together with proofs checking the specification
claims against it.

HashMaps from the source are embedded as association lists; `BitSet`s as
lists of ids; wall-clock instants and `Duration`s as natural numbers
(seconds); the randomly generated `SessionToken`s are threaded in as
explicit parameters.  Rust `panic` / `expect` failure is a dedicated
`Outcome.crashed` result.
-/

set_option linter.unusedVariables false

namespace Mafia

/-- `ClientId(pub usize)`. -/
abbrev ClientId := Nat

/-- `SessionToken(pub Uuid)`: opaque token, embedded as a natural number. -/
abbrev SessionToken := Nat

/-- `enum Allegiance { Mafia, Villagers }`. -/
inductive Allegiance where
  | Mafia
  | Villagers
deriving DecidableEq, Repr

/-- `enum SpecialRole { Mafia, Doctor, Detective }`. -/
inductive SpecialRole where
  | Mafia
  | Doctor
  | Detective
deriving DecidableEq, Repr

/-- `SpecialRole::allegiance`. -/
def SpecialRole.allegiance : SpecialRole → Allegiance
  | .Mafia => .Mafia
  | .Doctor => .Villagers
  | .Detective => .Villagers

/-- `enum PlayerStatus { Alive, Dead }`. -/
inductive PlayerStatus where
  | Alive
  | Dead
deriving DecidableEq, Repr

/-- `enum Cycle { Day, Night }`. -/
inductive Cycle where
  | Day
  | Night
deriving DecidableEq, Repr

/-- `Cycle::next`. -/
def Cycle.next : Cycle → Cycle
  | .Night => .Day
  | .Day => .Night

/-- `enum EventChannel { Public, Mafia, Spectator }`. -/
inductive EventChannel where
  | Public
  | Mafia
  | Spectator
deriving DecidableEq, Repr

/-- `enum Entity { Client(ClientId), System }`. -/
inductive Entity where
  | Client (id : ClientId)
  | System
deriving DecidableEq, Repr

/-- `struct ClientInfo { name, id }`. -/
structure ClientInfo where
  name : String
  id : ClientId
deriving DecidableEq, Repr

/-- `struct Message { channel, contents, from }`. -/
structure Message where
  channel : EventChannel
  contents : String
  fromEntity : Entity
deriving DecidableEq, Repr

/-- `struct GameInfo` from the shared library. -/
structure GameInfo where
  cycleStartTimeUnixTsSecs : Nat
  cycleDurationSecs : Nat
  currentCycle : Cycle
  dayNum : Nat
  playerToRole : List (ClientId × SpecialRole)
  playerStatus : List (ClientId × PlayerStatus)
  votes : List (ClientId × Option ClientId)
  winner : Option Allegiance
deriving DecidableEq, Repr

/-- `struct ServerInfo { connected_clients, active_game }`. -/
structure ServerInfo where
  connectedClients : List (ClientId × ClientInfo)
  activeGame : Option GameInfo
deriving DecidableEq, Repr

/-- `enum Event` (wire-level), with the four-field `SetCycle` used by the
game engine and its tests. -/
inductive Event where
  | SetServerInfo (info : ServerInfo)
  | SetGame (info : GameInfo)
  | EndGame
  | ClientConnected (info : ClientInfo)
  | ClientDisconnected (id : ClientId)
  | MessageReceived (msg : Message)
  | VoteIssued (voter : ClientId) (target : Option ClientId) (channel : EventChannel)
  | FailedVote (cycle : Cycle) (channel : EventChannel)
  | SetCycle (startTimeUnixTsSecs : Nat) (durationSecs : Nat) (cycle : Cycle) (dayNum : Nat)
  | PlayerKilled (player : ClientId) (cycle : Cycle) (deathMessage : String)
  | PlayerInvestigated (actor : ClientId) (target : ClientId) (allegiance : Allegiance)
  | GameWon (playerToRole : List (ClientId × SpecialRole)) (side : Allegiance)
deriving DecidableEq, Repr

/-- `enum MafiaGameError`. -/
inductive MafiaGameError where
  | ClientNameRegistered (name : String)
  | InvalidSessionToken (token : SessionToken)
  | InvalidClientId (id : ClientId)
  | TooManyClientsRegistered
  | NotEnoughPlayers (msg : String)
  | InvalidGameConfig (msg : String)
  | InvalidVote (msg : String)
  | GameInProgress
  | NoGameInProgress
  | ClientDisconnected (id : ClientId)
deriving DecidableEq, Repr

/-- Result of a Rust call: success, `Err(e)`, or a panic (`expect` failure). -/
inductive Outcome (α : Type) where
  | ok : α → Outcome α
  | err : MafiaGameError → Outcome α
  | crashed : Outcome α
deriving DecidableEq, Repr

/-! ### Association-list embedding of `HashMap` -/

/-- `HashMap::get`, on the association-list embedding. -/
def alookup [DecidableEq α] (k : α) : List (α × β) → Option β
  | [] => none
  | (a, b) :: t => if a = k then some b else alookup k t

/-- `HashMap::insert`: replace the entry for `k` if present, else append. -/
def ainsert [DecidableEq α] (l : List (α × β)) (k : α) (v : β) : List (α × β) :=
  if l.any (fun p => p.1 = k) then
    l.map (fun p => if p.1 = k then (k, v) else p)
  else
    l ++ [(k, v)]

/-- `DAY_DEATH_MESSAGES`. -/
def DAY_DEATH_MESSAGES : List String :=
  ["was hung for their unforgivable sins"]

/-- `NIGHT_DEATH_MESSAGES`. -/
def NIGHT_DEATH_MESSAGES : List String :=
  ["was found strangled by an untyped python",
   "was found brutally beat with a mechanical keyboard",
   "was found poisoned from eating expired ketchup",
   "never made it home because of 101 traffic",
   "was found pummelled by what appears to have been a gorilla",
   "was found unresponsive next to a beer tower"]

/-! ### Game engine (`game.rs`) -/

/-- `struct GameConfig`; durations are seconds. -/
structure GameConfig where
  startCycle : Cycle
  timeForDay : Nat
  endDayAfterAllVotes : Bool
  timeForNight : Nat
  endNightAfterAllVotes : Bool
  numSpecialRoles : List (SpecialRole × Nat)
  voteGracePeriod : Nat
deriving DecidableEq, Repr

/-- `struct Game`. -/
structure Game where
  config : GameConfig
  roleToPlayers : List (SpecialRole × List ClientId)
  playerToRole : List (ClientId × SpecialRole)
  playerStatus : List (ClientId × PlayerStatus)
  cycle : Cycle
  dayNum : Nat
  cycleStart : Nat
  votes : List (ClientId × Option ClientId)
  winner : Option Allegiance
deriving DecidableEq, Repr

/-- `Game::get_player_status`. -/
def Game.getPlayerStatus (g : Game) (c : ClientId) : Option PlayerStatus :=
  alookup c g.playerStatus

/-- `Game::get_player_role`. -/
def Game.getPlayerRole (g : Game) (c : ClientId) : Option SpecialRole :=
  alookup c g.playerToRole

/-- `Game::get_player_allegiance`. -/
def Game.getPlayerAllegiance (g : Game) (c : ClientId) : Allegiance :=
  match g.getPlayerRole c with
  | none => .Villagers
  | some r => r.allegiance

/-- `role_to_players.get(&role)` flattened to a list (absent key gives `[]`). -/
def Game.rolePlayers (g : Game) (r : SpecialRole) : List ClientId :=
  (alookup r g.roleToPlayers).getD []

/-- `Game::get_players(filter)` as a list of distinct ids (the source
collects into a `ClientSet` bitset, which deduplicates). -/
def Game.getPlayers (g : Game)
    (f : PlayerStatus → Option SpecialRole → Allegiance → Bool) : List ClientId :=
  ((g.playerStatus.filter
      (fun p => f p.2 (g.getPlayerRole p.1) (g.getPlayerAllegiance p.1))).map Prod.fst).dedup

/-- `is_alive` filter from `game.rs`. -/
def is_alive (st : PlayerStatus) (role : Option SpecialRole) (al : Allegiance) : Bool :=
  st = PlayerStatus.Alive

/-- `is_alive_and_mafia` filter from `game.rs`. -/
def is_alive_and_mafia (st : PlayerStatus) (role : Option SpecialRole) (al : Allegiance) : Bool :=
  st = PlayerStatus.Alive && al = Allegiance.Mafia

/-- Number of alive players (`get_players(is_alive).count()`). -/
def Game.numAlive (g : Game) : Nat :=
  (g.getPlayers is_alive).length

/-- Number of alive mafia (`get_players(is_alive_and_mafia).count()`). -/
def Game.numAliveMafia (g : Game) : Nat :=
  (g.getPlayers is_alive_and_mafia).length

/-- Number of alive special-role players (the night all-votes condition). -/
def Game.numAliveSpecial (g : Game) : Nat :=
  (g.getPlayers (fun st role _ => st = PlayerStatus.Alive && role.isSome)).length

/-- Day tally: number of non-`None` votes naming `t`
(`num_votes_for_player[t]`). -/
def dayVoteCount (votes : List (ClientId × Option ClientId)) (t : ClientId) : Nat :=
  (votes.filter (fun p => p.2 = some t)).length

/-- Night tally: number of votes naming `t` whose voter has Mafia allegiance
(`num_mafia_votes_for_player[t]`). -/
def Game.mafiaVoteCount (g : Game) (t : ClientId) : Nat :=
  ((g.votes.filter (fun p => g.getPlayerAllegiance p.1 = Allegiance.Mafia)).filter
    (fun p => p.2 = some t)).length

/-- The day-kill search: first voted player whose tally is a strict
supermajority of the alive players (`find` over the tally map). -/
def Game.dayKillTarget (g : Game) : Option ClientId :=
  (g.votes.filterMap Prod.snd).find? (fun t => dayVoteCount g.votes t * 2 > g.numAlive)

/-- `protected_players`: targets voted for by any Doctor. -/
def Game.protectedPlayers (g : Game) : List ClientId :=
  (g.rolePlayers .Doctor).filterMap (fun d => (alookup d g.votes).join)

/-- The night-kill search: first mafia-voted player whose mafia tally is a
strict supermajority of the alive mafia. -/
def Game.nightKillTarget (g : Game) : Option ClientId :=
  ((g.votes.filter (fun p => g.getPlayerAllegiance p.1 = Allegiance.Mafia)).filterMap
      Prod.snd).find?
    (fun t => g.mafiaVoteCount t * 2 > g.numAliveMafia)

/-- `player_status.get_mut(&c) = Dead` (in-place status overwrite). -/
def Game.setDead (g : Game) (c : ClientId) : Game :=
  { g with playerStatus := g.playerStatus.map (fun p => if p.1 = c then (p.1, .Dead) else p) }

/-- The Day arm of `end_cycle`. -/
def Game.dayResolve (g : Game) : Game × List Event :=
  match g.dayKillTarget with
  | some votedPlayer =>
      (g.setDead votedPlayer,
       [.PlayerKilled votedPlayer g.cycle (DAY_DEATH_MESSAGES.getD 0 "")])
  | none => (g, [.FailedVote g.cycle .Public])

/-- The Detective loop of `end_cycle`. -/
def Game.investigations (g : Game) : List Event :=
  (g.rolePlayers .Detective).filterMap (fun investigator =>
    match (alookup investigator g.votes).join with
    | some target => some (.PlayerInvestigated investigator target (g.getPlayerAllegiance target))
    | none => none)

/-- The Night arm of `end_cycle`: the kill / failed-vote step followed by
the Detective investigations computed on the post-kill state. -/
def Game.nightResolve (g : Game) : Game × List Event :=
  match g.nightKillTarget with
  | some mafiaVotedPlayer =>
      if mafiaVotedPlayer ∈ g.protectedPlayers then
        (g, [] ++ g.investigations)
      else
        (g.setDead mafiaVotedPlayer,
         [.PlayerKilled mafiaVotedPlayer g.cycle (NIGHT_DEATH_MESSAGES.getD 0 "")] ++
           (g.setDead mafiaVotedPlayer).investigations)
  | none => (g, [.FailedVote g.cycle .Mafia] ++ g.investigations)

/-- `Game::get_cycle_duration`. -/
def Game.getCycleDuration (g : Game) : Nat :=
  if g.cycle = Cycle.Day then g.config.timeForDay else g.config.timeForNight

/-- The win checks and cycle advance at the tail of `end_cycle`; the
`SetCycle` wall-clock field is zeroed as in test builds. -/
def Game.terminalCheck (g : Game) (ret : List Event) : Game × List Event :=
  if g.numAliveMafia = 0 then
    ({ g with winner := some .Villagers }, ret ++ [.GameWon g.playerToRole .Villagers])
  else if g.numAliveMafia * 2 ≥ g.numAlive then
    ({ g with winner := some .Mafia }, ret ++ [.GameWon g.playerToRole .Mafia])
  else if g.dayNum ≥ 100 then
    ({ g with winner := some .Mafia }, ret ++ [.GameWon g.playerToRole .Mafia])
  else
    let newCycle := g.cycle.next
    let newDayNum := if newCycle = Cycle.Day then g.dayNum + 1 else g.dayNum
    let g' := { g with votes := [], cycle := newCycle, dayNum := newDayNum }
    (g', ret ++ [.SetCycle 0 g'.getCycleDuration newCycle newDayNum])

/-- `Game::end_cycle`. -/
def Game.endCycle (g : Game) : Game × List Event :=
  if g.winner.isSome then (g, [])
  else
    let step := match g.cycle with
      | .Day => g.dayResolve
      | .Night => g.nightResolve
    step.1.terminalCheck step.2

/-- Predicate for the Night voter-eligibility match in `cast_vote`
(`matches!(v, Mafia | Doctor | Detective)`). -/
def nightEligible : SpecialRole → Bool
  | .Mafia => true
  | .Doctor => true
  | .Detective => true

/-- `Game::cast_vote`; returns the (possibly unchanged) state together with
an optional error, mirroring in-place mutation. -/
def Game.castVote (g : Game) (now : Nat) (voter : ClientId) (target : Option ClientId) :
    Game × Option MafiaGameError :=
  if g.winner.isSome then
    (g, some (.InvalidVote "game is complete"))
  else if g.getPlayerStatus voter ≠ some .Alive then
    (g, some (.InvalidVote "voter is not alive"))
  else if target.any (fun t => decide (g.getPlayerStatus t ≠ some .Alive)) then
    (g, some (.InvalidVote "target for vote is not alive"))
  else if now - g.cycleStart < g.config.voteGracePeriod then
    (g, some (.InvalidVote "must wait after cycle start to cast vote"))
  else
    match g.cycle with
    | .Day => ({ g with votes := ainsert g.votes voter target }, none)
    | .Night =>
        if (match g.getPlayerRole voter with
            | some r => nightEligible r
            | none => false) then
          ({ g with votes := ainsert g.votes voter target }, none)
        else
          (g, some (.InvalidVote "does not have a role eligible to vote"))

/-- `Game::poll_end_cycle`. -/
def Game.pollEndCycle (g : Game) (now : Nat) : Game × List Event :=
  if g.winner.isSome then (g, [])
  else if now - g.cycleStart > g.getCycleDuration then g.endCycle
  else if g.cycle = Cycle.Day && g.config.endDayAfterAllVotes &&
          g.votes.length = g.numAlive then g.endCycle
  else if g.cycle = Cycle.Night && g.config.endNightAfterAllVotes &&
          g.votes.length = g.numAliveSpecial then g.endCycle
  else (g, [])

/-! ### Client registry (`client.rs`) -/

/-- `MAX_PLAYERS`. -/
def MAX_PLAYERS : Nat := 64

/-- `struct Client`; `last_active` is seconds since the epoch. -/
structure Client where
  inbox : List Event
  name : String
  id : ClientId
  sessionToken : SessionToken
  lastActive : Nat
  disconnected : Bool
deriving DecidableEq, Repr

/-- `struct ClientState`. -/
structure ClientState where
  clients : List (ClientId × Client)
  clientNameToId : List (String × ClientId)
  sessionTokenToId : List (SessionToken × ClientId)
  claimedIds : List ClientId
deriving DecidableEq, Repr

/-- `ClientState::new`. -/
def ClientState.new : ClientState :=
  { clients := [], clientNameToId := [], sessionTokenToId := [], claimedIds := [] }

/-- `BitSet::insert` on the claimed-id pool. -/
def claimId (ids : List ClientId) (i : ClientId) : List ClientId :=
  if i ∈ ids then ids else ids ++ [i]

/-- `ClientState::connect_client`; the freshly generated session token and
the current time are passed in explicitly.  Note that in the
reconnect branch the source rotates only the client-held token: the
`session_token_to_id` index is left untouched. -/
def ClientState.connectClient (st : ClientState) (clientName : String)
    (freshToken : SessionToken) (now : Nat) :
    Outcome (ClientState × ClientId × SessionToken) :=
  match alookup clientName st.clientNameToId with
  | some existingClientId =>
      match alookup existingClientId st.clients with
      | none => .crashed
      | some client =>
          if !client.disconnected then
            .err (.ClientNameRegistered clientName)
          else
            let client' := { client with
              sessionToken := freshToken
              lastActive := now
              disconnected := false }
            .ok ({ st with clients := ainsert st.clients existingClientId client' },
                 existingClientId, freshToken)
  | none =>
      match (List.range MAX_PLAYERS).find? (fun i => !(i ∈ st.claimedIds : Bool)) with
      | none => .err .TooManyClientsRegistered
      | some id =>
          let client : Client := {
            inbox := []
            name := clientName
            id := id
            sessionToken := freshToken
            lastActive := now
            disconnected := false }
          .ok ({ st with
                  clients := ainsert st.clients id client
                  clientNameToId := ainsert st.clientNameToId clientName id
                  sessionTokenToId := ainsert st.sessionTokenToId freshToken id
                  claimedIds := claimId st.claimedIds id },
               id, freshToken)

/-- `ClientState::disconnect_client`: marks the client disconnected and
resets its inbox to a fresh empty queue. -/
def ClientState.disconnectClient (st : ClientState) (clientId : ClientId) :
    Outcome ClientState :=
  match alookup clientId st.clients with
  | none => .err (.InvalidClientId clientId)
  | some client =>
      if client.disconnected then
        .err (.ClientDisconnected clientId)
      else
        let client' := { client with disconnected := true, inbox := [] }
        .ok { st with clients := ainsert st.clients clientId client' }

/-- `ClientState::purge_disconnected_clients`; returns the new state and the
list of newly disconnected (inactivity-evicted) clients. -/
def ClientState.purgeDisconnectedClients (st : ClientState) (now : Nat)
    (maxInactiveTime : Nat) : ClientState × List ClientId :=
  let cond : ClientId × Client → Bool := fun p =>
    p.2.disconnected || decide (now - p.2.lastActive ≥ maxInactiveTime)
  let removed := st.clients.filter cond
  let removedIds := removed.map (fun p => p.2.id)
  ({ st with
      clients := st.clients.filter (fun p => !(p.1 ∈ removedIds : Bool))
      clientNameToId :=
        st.clientNameToId.filter (fun p => !removed.any (fun q => q.2.name = p.1))
      sessionTokenToId :=
        st.sessionTokenToId.filter (fun p => !removed.any (fun q => q.2.sessionToken = p.1))
      claimedIds := st.claimedIds.filter (fun i => !(i ∈ removedIds : Bool)) },
   (removed.filter (fun p => !p.2.disconnected)).map (fun p => p.2.id))

/-- `ClientState::auth_client`; on success the `last_active` field of the
client is refreshed, so the updated state is returned alongside the id. -/
def ClientState.authClient (st : ClientState) (sessionToken : SessionToken) (now : Nat) :
    Outcome (ClientId × ClientState) :=
  match alookup sessionToken st.sessionTokenToId with
  | none => .err (.InvalidSessionToken sessionToken)
  | some clientId =>
      match alookup clientId st.clients with
      | none => .crashed
      | some client =>
          if client.disconnected then
            .err (.ClientDisconnected clientId)
          else
            let client' := { client with lastActive := now }
            .ok (clientId, { st with clients := ainsert st.clients clientId client' })

/-- Inbox update of one client in `send_event`. -/
def sendUpdate (recips : List ClientId) (event : Event) (id : ClientId) (client : Client) : Client :=
  if (id ∈ recips : Bool) && !client.disconnected then
    { client with inbox := client.inbox ++ [event] }
  else
    client

/-- `ClientState::send_event`: append the event to every present,
non-disconnected recipient inbox (both source branches compute this). -/
def ClientState.sendEvent (st : ClientState) (recips : List ClientId) (event : Event) :
    ClientState :=
  { st with clients := st.clients.map (fun p => (p.1, sendUpdate recips event p.1 p.2)) }

/-- `ClientState::take_events`: drain the inbox of the client (empty result
for unknown ids). -/
def ClientState.takeEvents (st : ClientState) (forClient : ClientId) :
    List Event × ClientState :=
  match alookup forClient st.clients with
  | none => ([], st)
  | some client =>
      (client.inbox,
       { st with clients := ainsert st.clients forClient { client with inbox := [] } })

/-- Registry states reachable through the registry operations (the facade
mutates the registry only through these). -/
inductive Reachable : ClientState → Prop where
  | init : Reachable ClientState.new
  | connect (st st' : ClientState) (n : String) (tok tok' : SessionToken) (now : Nat)
      (cid : ClientId) : Reachable st →
      st.connectClient n tok now = .ok (st', cid, tok') → Reachable st'
  | disconnect (st st' : ClientState) (cid : ClientId) : Reachable st →
      st.disconnectClient cid = .ok st' → Reachable st'
  | auth (st st' : ClientState) (tok : SessionToken) (now : Nat) (cid : ClientId) :
      Reachable st → st.authClient tok now = .ok (cid, st') → Reachable st'
  | purge (st : ClientState) (now maxInactive : Nat) : Reachable st →
      Reachable (st.purgeDisconnectedClients now maxInactive).1
  | send (st : ClientState) (recips : List ClientId) (e : Event) : Reachable st →
      Reachable (st.sendEvent recips e)
  | take (st : ClientState) (cid : ClientId) : Reachable st →
      Reachable (st.takeEvents cid).2

/-! ### Server facade (`lib.rs`) -/

/-- `struct MafiaGameServerConfig`. -/
structure MafiaGameServerConfig where
  maxClientInactiveTime : Nat
  randomizeDeathMessage : Bool
deriving DecidableEq, Repr

/-- `struct MafiaGameServerInner`. -/
structure MafiaGameServerInner where
  config : MafiaGameServerConfig
  clients : ClientState
  activeGame : Option Game
deriving DecidableEq, Repr

/-- `MafiaGameServerInner::get_active_game_mut` (the read-only variant is
identical); the game itself is returned for the caller to thread back. -/
def MafiaGameServerInner.getActiveGame (inner : MafiaGameServerInner) :
    Outcome Game :=
  match inner.activeGame with
  | none => .err .NoGameInProgress
  | some game =>
      if game.winner.isSome then .err .NoGameInProgress
      else .ok game

/-- `ClientState::all_client_ids`. -/
def ClientState.allClientIds (st : ClientState) : List ClientId :=
  st.claimedIds

/-- `ClientSet::difference_with` on the list embedding. -/
def setDifference (s other : List ClientId) : List ClientId :=
  s.filter (fun i => !(i ∈ other : Bool))

/-- `ClientSet::insert` on the list embedding. -/
def setInsert (s : List ClientId) (i : ClientId) : List ClientId :=
  if i ∈ s then s else s ++ [i]

/-- `MafiaGameServerInner::get_clients_for_channel`. -/
def MafiaGameServerInner.getClientsForChannel (inner : MafiaGameServerInner)
    (actor : Option ClientId) (channel : EventChannel) : List ClientId :=
  let allClients := inner.clients.allClientIds
  let base :=
    match channel with
    | .Public => allClients
    | .Mafia =>
        match inner.activeGame with
        | some game =>
            setDifference allClients
              (game.getPlayers (fun status _ allegiance =>
                status = PlayerStatus.Alive && allegiance = Allegiance.Villagers))
        | none => []
    | .Spectator =>
        match inner.activeGame with
        | some game => setDifference allClients (game.getPlayers is_alive)
        | none => allClients
  match actor with
  | some clientId => setInsert base clientId
  | none => base

/-- `MafiaGameServerInner::get_event_visibility`.  The `SetServerInfo` /
`SetGame` arms are `unreachable!` in the source; they yield `[]` here. -/
def MafiaGameServerInner.getEventVisibility (inner : MafiaGameServerInner)
    (event : Event) : List ClientId :=
  match event with
  | .SetServerInfo _ => []
  | .SetGame _ => []
  | .EndGame => inner.clients.allClientIds
  | .ClientConnected info =>
      (inner.clients.allClientIds).filter (fun i => !(i = info.id : Bool))
  | .ClientDisconnected clientId =>
      (inner.clients.allClientIds).filter (fun i => !(i = clientId : Bool))
  | .MessageReceived message =>
      match message.fromEntity with
      | .Client clientId => inner.getClientsForChannel (some clientId) message.channel
      | .System => inner.clients.allClientIds
  | .VoteIssued voter _ channel => inner.getClientsForChannel (some voter) channel
  | .FailedVote _ channel => inner.getClientsForChannel none channel
  | .PlayerKilled _ _ _ => inner.clients.allClientIds
  | .SetCycle _ _ _ _ => inner.clients.allClientIds
  | .PlayerInvestigated actor _ _ => inner.getClientsForChannel (some actor) .Spectator
  | .GameWon _ _ => inner.clients.allClientIds

/-- `MafiaGameServerInner::send_event`; the random death-message draw is
threaded in as the `pick` oracle. -/
def MafiaGameServerInner.sendEvent (inner : MafiaGameServerInner)
    (pick : Cycle → String) (event : Event) : MafiaGameServerInner :=
  let recips := inner.getEventVisibility event
  let event' :=
    match event with
    | .PlayerKilled player cycle deathMessage =>
        if inner.config.randomizeDeathMessage then
          .PlayerKilled player cycle (pick cycle)
        else
          .PlayerKilled player cycle deathMessage
    | e => e
  { inner with clients := inner.clients.sendEvent recips event' }

/-- Votes component of `get_game_info_for`. -/
def Game.tailoredVotes (g : Game) (client : ClientId) : List (ClientId × Option ClientId) :=
  match g.getPlayerStatus client, g.getPlayerRole client, g.cycle with
  | none, _, _ => g.votes
  | some .Dead, _, _ => g.votes
  | some .Alive, _, .Day => g.votes
  | some .Alive, some .Mafia, .Night =>
      g.votes.filterMap (fun p =>
        if g.getPlayerAllegiance p.1 = Allegiance.Mafia then some (p.1, p.2) else none)
  | some .Alive, some _, .Night =>
      g.votes.filterMap (fun p => if p.1 = client then some (p.1, p.2) else none)
  | some .Alive, none, .Night => []

/-- Roles component of `get_game_info_for`. -/
def Game.tailoredRoles (g : Game) (client : ClientId) : List (ClientId × SpecialRole) :=
  match g.getPlayerStatus client, g.getPlayerRole client with
  | none, _ => g.playerToRole
  | some .Dead, _ => g.playerToRole
  | some .Alive, some .Mafia =>
      g.playerToRole.filterMap (fun p =>
        if p.2 = SpecialRole.Mafia then some (p.1, p.2) else none)
  | some .Alive, some .Doctor => [(client, .Doctor)]
  | some .Alive, some .Detective => [(client, .Detective)]
  | some .Alive, none => []

/-- `MafiaGameServerInner::get_game_info_for` for an active game; the
wall-clock field is zeroed as in test builds. -/
def Game.gameInfoFor (g : Game) (client : ClientId) : GameInfo :=
  { cycleStartTimeUnixTsSecs := 0
    cycleDurationSecs := g.getCycleDuration
    currentCycle := g.cycle
    dayNum := g.dayNum
    playerStatus := g.playerStatus
    winner := g.winner
    playerToRole := g.tailoredRoles client
    votes := g.tailoredVotes client }

/-- `MafiaGameServerInner::get_game_info_for`. -/
def MafiaGameServerInner.getGameInfoFor (inner : MafiaGameServerInner)
    (client : ClientId) : Option GameInfo :=
  match inner.activeGame with
  | none => none
  | some game => some (game.gameInfoFor client)

/-- `MafiaGameServer::cast_vote`: authenticate, fetch the active game, cast
the engine vote, then fan out `VoteIssued` plus any cycle-end events. -/
def MafiaGameServer.castVote (inner : MafiaGameServerInner) (pick : Cycle → String)
    (now : Nat) (sessionToken : SessionToken) (target : Option ClientId) :
    Outcome (MafiaGameServerInner × Option MafiaGameError) :=
  match inner.clients.authClient sessionToken now with
  | .crashed => .crashed
  | .err e => .ok (inner, some e)
  | .ok (clientId, clients') =>
      let inner := { inner with clients := clients' }
      match inner.getActiveGame with
      | .crashed => .crashed
      | .err e => .ok (inner, some e)
      | .ok game =>
          match game.castVote now clientId target with
          | (_, some e) => .ok ({ inner with activeGame := some game }, some e)
          | (game', none) =>
              let channel :=
                if game'.cycle = Cycle.Day then EventChannel.Public
                else if game'.getPlayerAllegiance clientId = Allegiance.Mafia then
                  EventChannel.Mafia
                else EventChannel.Spectator
              let polled := game'.pollEndCycle now
              let events := Event.VoteIssued clientId target channel :: polled.2
              let innerAfter := { inner with activeGame := some polled.1 }
              .ok (events.foldl (fun acc e => acc.sendEvent pick e) innerAfter, none)

/-! ### Spec-side descriptions (written from the words of the specification,
for comparison with the code-derived definitions) -/

/-- Spec description of when `cast_vote` rejects: game already won, voter
not alive, live target required, grace period, or a roleless night voter. -/
def castVoteRejectsSpec (g : Game) (now : Nat) (voter : ClientId)
    (target : Option ClientId) : Bool :=
  g.winner.isSome ||
  decide (g.getPlayerStatus voter ≠ some .Alive) ||
  (match target with
   | some t => decide (g.getPlayerStatus t ≠ some .Alive)
   | none => false) ||
  decide (now - g.cycleStart < g.config.voteGracePeriod) ||
  (decide (g.cycle = Cycle.Night) && decide (g.getPlayerRole voter = none))

/-- Spec description of the cycle-end conditions polled by
`poll_end_cycle`: wall-clock expiry, or all alive players voted on a Day
with `end_day_after_all_votes`, or all alive special-role players voted on
a Night with `end_night_after_all_votes`. -/
def endCycleCondSpec (g : Game) (now : Nat) : Bool :=
  decide (now - g.cycleStart > g.getCycleDuration) ||
  (decide (g.cycle = Cycle.Day) && g.config.endDayAfterAllVotes &&
    decide (g.votes.length = g.numAlive)) ||
  (decide (g.cycle = Cycle.Night) && g.config.endNightAfterAllVotes &&
    decide (g.votes.length = g.numAliveSpecial))

/-- Day strict supermajority: the non-none vote tally of `t` doubled exceeds
the number of alive players. -/
@[reducible] def Game.dayMajority (g : Game) (t : ClientId) : Prop :=
  dayVoteCount g.votes t * 2 > g.numAlive

/-- Night mafia strict supermajority: the mafia vote tally of `t` doubled
exceeds the number of alive mafia. -/
@[reducible] def Game.mafiaMajority (g : Game) (t : ClientId) : Prop :=
  g.mafiaVoteCount t * 2 > g.numAliveMafia

/-- Spec description of the tailored `votes` field of `GameInfo` (claim
C2): full map for dead/spectator recipients and during the Day; during the
Night, the votes of Mafia-allegiance voters for an alive Mafia, only the own
entry for an alive Doctor or Detective, and nothing for an alive plain
villager. -/
def tailoredVotesSpec (g : Game) (r : ClientId) : List (ClientId × Option ClientId) :=
  if g.getPlayerStatus r ≠ some PlayerStatus.Alive then g.votes
  else if g.cycle = Cycle.Day then g.votes
  else
    match g.getPlayerRole r with
    | some .Mafia => g.votes.filter (fun p => g.getPlayerAllegiance p.1 = Allegiance.Mafia)
    | some .Doctor => g.votes.filter (fun p => p.1 = r)
    | some .Detective => g.votes.filter (fun p => p.1 = r)
    | none => []

/-! ### Concrete states used by witnesses and counterexamples -/

/-- A small game configuration for concrete test states. -/
def cfg0 : GameConfig :=
  { startCycle := .Day
    timeForDay := 30
    endDayAfterAllVotes := true
    timeForNight := 20
    endNightAfterAllVotes := true
    numSpecialRoles := [(.Mafia, 1)]
    voteGracePeriod := 2 }

/-- Three players, player 2 is Mafia, Day cycle, players 0 and 1 vote for
player 2, player 2 skips. -/
def gDay : Game :=
  { config := cfg0
    roleToPlayers := [(.Mafia, [2])]
    playerToRole := [(2, .Mafia)]
    playerStatus := [(0, .Alive), (1, .Alive), (2, .Alive)]
    cycle := .Day
    dayNum := 1
    cycleStart := 0
    votes := [(0, some 2), (1, some 2), (2, none)]
    winner := none }

/-- A game already won by the villagers. -/
def gWon : Game :=
  { gDay with winner := some .Villagers }

/-- Five players at Night: 0 is Mafia voting 3, 1 is Doctor voting 4,
2 is Detective investigating 0. -/
def gNight : Game :=
  { config := { cfg0 with startCycle := .Night }
    roleToPlayers := [(.Mafia, [0]), (.Doctor, [1]), (.Detective, [2])]
    playerToRole := [(0, .Mafia), (1, .Doctor), (2, .Detective)]
    playerStatus := [(0, .Alive), (1, .Alive), (2, .Alive), (3, .Alive), (4, .Alive)]
    cycle := .Night
    dayNum := 1
    cycleStart := 0
    votes := [(0, some 3), (1, some 4), (2, some 0)]
    winner := none }

/-! ### Helper lemmas -/

theorem nightEligible_true (r : SpecialRole) : nightEligible r = true := by
  cases r <;> rfl

theorem alookup_nil [DecidableEq α] (k : α) : alookup (β := β) k [] = none := rfl

theorem alookup_cons [DecidableEq α] (k : α) (x : α × β) (l : List (α × β)) :
    alookup k (x :: l) = if x.1 = k then some x.2 else alookup k l := by
  obtain ⟨a, b⟩ := x
  rfl

theorem mem_of_alookup_eq_some [DecidableEq α] {k : α} {v : β} :
    ∀ {l : List (α × β)}, alookup k l = some v → (k, v) ∈ l := by
  intro l
  induction l with
  | nil => intro h; cases h
  | cons x t ih =>
      intro h
      rw [alookup_cons] at h
      by_cases hx : x.1 = k
      · rw [if_pos hx] at h
        have hv : x.2 = v := Option.some.inj h
        subst hx
        subst hv
        have hex : (x.1, x.2) = x := rfl
        rw [hex]
        exact List.mem_cons_self x t
      · rw [if_neg hx] at h
        exact List.mem_cons_of_mem _ (ih h)

theorem alookup_map_self [DecidableEq α] (k : α) (v : β) :
    ∀ l : List (α × β), l.any (fun p => p.1 = k) = true →
      alookup k (l.map (fun p => if p.1 = k then (k, v) else p)) = some v := by
  intro l h
  induction l with
  | nil => cases h
  | cons x t ih =>
      by_cases hx : x.1 = k
      · rw [List.map_cons, if_pos hx, alookup_cons]
        simp
      · simp only [List.any_cons, hx, decide_False, Bool.false_or] at h
        rw [List.map_cons, if_neg hx, alookup_cons, if_neg hx]
        exact ih h

theorem alookup_append_right [DecidableEq α] (k : α) (v : β) :
    ∀ l : List (α × β), alookup k l = none → alookup k (l ++ [(k, v)]) = some v := by
  intro l h
  induction l with
  | nil => simp [alookup]
  | cons x t ih =>
      rw [alookup_cons] at h
      by_cases hx : x.1 = k
      · rw [if_pos hx] at h; cases h
      · rw [if_neg hx] at h
        rw [List.cons_append, alookup_cons, if_neg hx]
        exact ih h

theorem not_any_alookup_none [DecidableEq α] {k : α} :
    ∀ {l : List (α × β)}, l.any (fun p => p.1 = k) = false → alookup k l = none := by
  intro l
  induction l with
  | nil => intro _; rfl
  | cons x t ih =>
      intro h
      simp only [List.any_cons, Bool.or_eq_false_iff, decide_eq_false_iff_not] at h
      rw [alookup_cons, if_neg h.1]
      exact ih (by simp [h.2])

theorem alookup_ainsert_self [DecidableEq α] (l : List (α × β)) (k : α) (v : β) :
    alookup k (ainsert l k v) = some v := by
  unfold ainsert
  by_cases h : l.any (fun p => p.1 = k) = true
  · rw [if_pos h]
    exact alookup_map_self k v l h
  · rw [if_neg h]
    exact alookup_append_right k v l
      (not_any_alookup_none (Bool.eq_false_iff.2 (fun hh => h hh)))

theorem alookup_map_ne [DecidableEq α] (k w : α) (v : β) (h : w ≠ k) :
    ∀ l : List (α × β),
      alookup w (l.map (fun p => if p.1 = k then (k, v) else p)) = alookup w l := by
  intro l
  induction l with
  | nil => rfl
  | cons x t ih =>
      by_cases hx : x.1 = k
      · rw [List.map_cons, if_pos hx, alookup_cons, alookup_cons]
        have h1 : ¬((k, v) : α × β).1 = w := fun hh => h hh.symm
        have h2 : ¬x.1 = w := by rw [hx]; exact fun hh => h hh.symm
        rw [if_neg h1, if_neg h2]
        exact ih
      · rw [List.map_cons, if_neg hx, alookup_cons, alookup_cons]
        by_cases hxw : x.1 = w
        · rw [if_pos hxw, if_pos hxw]
        · rw [if_neg hxw, if_neg hxw]
          exact ih

theorem alookup_append_single_ne [DecidableEq α] (k w : α) (v : β) (h : w ≠ k) :
    ∀ l : List (α × β), alookup w (l ++ [(k, v)]) = alookup w l := by
  intro l
  induction l with
  | nil =>
      rw [List.nil_append, alookup_cons]
      exact if_neg (fun hh => h hh.symm)
  | cons x t ih =>
      rw [List.cons_append, alookup_cons, alookup_cons]
      by_cases hxw : x.1 = w
      · rw [if_pos hxw, if_pos hxw]
      · rw [if_neg hxw, if_neg hxw]
        exact ih

theorem alookup_ainsert_ne [DecidableEq α] (l : List (α × β)) (k w : α) (v : β)
    (h : w ≠ k) : alookup w (ainsert l k v) = alookup w l := by
  unfold ainsert
  by_cases hany : l.any (fun p => p.1 = k) = true
  · rw [if_pos hany]
    exact alookup_map_ne k w v h l
  · rw [if_neg hany]
    exact alookup_append_single_ne k w v h l

theorem mem_ainsert [DecidableEq α] {p : α × β} {l : List (α × β)} {k : α} {v : β}
    (h : p ∈ ainsert l k v) : p = (k, v) ∨ p ∈ l := by
  unfold ainsert at h
  by_cases hany : l.any (fun p => p.1 = k) = true
  · rw [if_pos hany] at h
    obtain ⟨q, hq, hfq⟩ := List.mem_map.1 h
    by_cases hqk : q.1 = k
    · rw [if_pos hqk] at hfq
      exact Or.inl hfq.symm
    · rw [if_neg hqk] at hfq
      exact Or.inr (hfq ▸ hq)
  · rw [if_neg hany] at h
    rcases List.mem_append.1 h with h' | h'
    · exact Or.inr h'
    · exact Or.inl (List.mem_singleton.1 h')

/-! ### Claim theorems -/

/-- C6: `cast_vote(voter, target)` returns an `InvalidVote` error exactly
when the game is won, the voter is not alive, the target is a non-alive
`Some`, the grace period has not elapsed, or a roleless voter votes at
night; otherwise it records `votes[voter] = target`, overwriting any prior
vote, and errors leave the state unchanged. -/
theorem cast_vote_spec (g : Game) (now : Nat) (v : ClientId) (t : Option ClientId) :
    ((∃ s, (g.castVote now v t).2 = some (.InvalidVote s)) ↔
      castVoteRejectsSpec g now v t = true) ∧
    ((g.castVote now v t).2.isSome → (g.castVote now v t).1 = g) ∧
    (castVoteRejectsSpec g now v t = false →
      (g.castVote now v t) = ({ g with votes := ainsert g.votes v t }, none) ∧
      alookup v (g.castVote now v t).1.votes = some t ∧
      (∀ w, w ≠ v → alookup w (g.castVote now v t).1.votes = alookup w g.votes)) := by
  unfold Game.castVote castVoteRejectsSpec
  by_cases h1 : g.winner.isSome
  · simp [h1]
  rw [if_neg h1]
  simp only [h1, Bool.false_or]
  by_cases h2 : g.getPlayerStatus v = some PlayerStatus.Alive
  · rw [if_neg (by simpa using h2)]
    simp only [(by simpa using h2 : decide (g.getPlayerStatus v ≠ some PlayerStatus.Alive) = false),
      Bool.false_or]
    cases t with
    | none =>
        simp only [Option.any_none, Bool.false_or, if_neg (by simp : ¬False)]
        rw [if_neg (by simp)]
        by_cases h4 : now - g.cycleStart < g.config.voteGracePeriod
        · simp [h4]
        · rw [if_neg h4]
          simp only [(by simpa using h4 :
            decide (now - g.cycleStart < g.config.voteGracePeriod) = false), Bool.false_or]
          cases hcyc : g.cycle with
          | Day =>
              refine ⟨by simp, by simp, fun _ => ?_⟩
              refine ⟨rfl, ?_, ?_⟩
              · exact alookup_ainsert_self g.votes v none
              · exact fun w hw => alookup_ainsert_ne g.votes v w none hw
          | Night =>
              cases hrole : g.getPlayerRole v with
              | some r =>
                  simp only [nightEligible_true, if_pos rfl]
                  refine ⟨by simp, by simp, fun _ => ?_⟩
                  refine ⟨rfl, ?_, ?_⟩
                  · exact alookup_ainsert_self g.votes v none
                  · exact fun w hw => alookup_ainsert_ne g.votes v w none hw
              | none =>
                  simp only [Bool.false_eq_true, if_neg (by simp : ¬(false = true))]
                  simp
    | some u =>
        by_cases h3 : g.getPlayerStatus u = some PlayerStatus.Alive
        · rw [if_neg (by simpa using h3)]
          simp only [(by simpa using h3 :
            decide (g.getPlayerStatus u ≠ some PlayerStatus.Alive) = false), Bool.false_or]
          by_cases h4 : now - g.cycleStart < g.config.voteGracePeriod
          · simp [h4]
          · rw [if_neg h4]
            simp only [(by simpa using h4 :
              decide (now - g.cycleStart < g.config.voteGracePeriod) = false), Bool.false_or]
            cases hcyc : g.cycle with
            | Day =>
                refine ⟨by simp, by simp, fun _ => ?_⟩
                refine ⟨rfl, ?_, ?_⟩
                · exact alookup_ainsert_self g.votes v (some u)
                · exact fun w hw => alookup_ainsert_ne g.votes v w (some u) hw
            | Night =>
                cases hrole : g.getPlayerRole v with
                | some r =>
                    simp only [nightEligible_true, if_pos rfl]
                    refine ⟨by simp, by simp, fun _ => ?_⟩
                    refine ⟨rfl, ?_, ?_⟩
                    · exact alookup_ainsert_self g.votes v (some u)
                    · exact fun w hw => alookup_ainsert_ne g.votes v w (some u) hw
                | none =>
                    simp only [Bool.false_eq_true, if_neg (by simp : ¬(false = true))]
                    simp
        · rw [if_pos (by simpa using h3)]
          simp [h3]
  · rw [if_pos (by simpa using h2)]
    simp [h2]

/-- C6 witness: a concrete successful vote through `cast_vote_spec`. -/
theorem cast_vote_spec_witness :
    castVoteRejectsSpec gDay 10 0 (some 1) = false ∧
    gDay.castVote 10 0 (some 1) = ({ gDay with votes := ainsert gDay.votes 0 (some 1) }, none) :=
  ⟨by decide, ((cast_vote_spec gDay 10 0 (some 1)).2.2 (by decide)).1⟩

/-- C7: with no winner yet, `poll_end_cycle` resolves the cycle exactly
when one of the three end conditions holds, and otherwise returns the
empty event list leaving the game unchanged. -/
theorem poll_end_cycle_spec (g : Game) (now : Nat) (hw : g.winner = none) :
    g.pollEndCycle now = if endCycleCondSpec g now then g.endCycle else (g, []) := by
  unfold Game.pollEndCycle endCycleCondSpec
  rw [hw]
  by_cases h1 : now - g.cycleStart > g.getCycleDuration
  · simp [h1]
  · by_cases h2 : (decide (g.cycle = Cycle.Day) && g.config.endDayAfterAllVotes &&
        decide (g.votes.length = g.numAlive)) = true
    · simp [h1, h2]
    · by_cases h3 : (decide (g.cycle = Cycle.Night) && g.config.endNightAfterAllVotes &&
          decide (g.votes.length = g.numAliveSpecial)) = true
      · simp [h1, h2, h3]
      · simp [h1, h2, h3]

/-- C7 witness: concrete application of `poll_end_cycle_spec`. -/
theorem poll_end_cycle_spec_witness :
    gDay.pollEndCycle 5 = if endCycleCondSpec gDay 5 then gDay.endCycle else (gDay, []) :=
  poll_end_cycle_spec gDay 5 (by decide)

/-- C8: once `winner` is set the game is terminal: `end_cycle` and
`poll_end_cycle` return the empty event list without touching the state,
and `cast_vote` fails, so roles, statuses, cycle, day counter and votes
never change again. -/
theorem winner_terminal_spec (g : Game) (now : Nat) (v : ClientId) (t : Option ClientId)
    (hw : g.winner.isSome = true) :
    g.endCycle = (g, []) ∧ g.pollEndCycle now = (g, []) ∧
    g.castVote now v t = (g, some (.InvalidVote "game is complete")) := by
  refine ⟨?_, ?_, ?_⟩ <;>
    simp [Game.endCycle, Game.pollEndCycle, Game.castVote, hw]

/-- C8 witness: concrete application of `winner_terminal_spec`. -/
theorem winner_terminal_spec_witness :
    gWon.winner.isSome = true ∧
    (gWon.endCycle = (gWon, []) ∧ gWon.pollEndCycle 50 = (gWon, []) ∧
     gWon.castVote 50 0 none = (gWon, some (.InvalidVote "game is complete"))) :=
  ⟨by decide, winner_terminal_spec gWon 50 0 none (by decide)⟩

theorem filterMap_guard_eq_filter {α β : Type _} (c : α × β → Prop) [DecidablePred c] :
    ∀ l : List (α × β),
      l.filterMap (fun p => if c p then some (p.1, p.2) else none) =
      l.filter (fun p => c p) := by
  intro l
  induction l with
  | nil => rfl
  | cons x t ih =>
      rw [List.filterMap_cons, List.filter_cons]
      by_cases hx : c x
      · rw [if_pos hx]
        have hd : (decide (c x)) = true := by simpa using hx
        rw [hd, if_pos rfl]
        have hex : ((x.1, x.2) : α × β) = x := rfl
        rw [hex, ih]
      · rw [if_neg hx]
        have hd : (decide (c x)) = false := by simpa using hx
        rw [hd]
        simpa using ih

/-- C2: the tailored `GameInfo.votes` handed to recipient `r` is exactly
the spec description: the full map for dead or non-playing recipients and
during the Day; at Night, the votes of Mafia-allegiance voters for an alive
Mafia, only the own entry for an alive Doctor or Detective, and nothing
for an alive plain villager. -/
theorem tailored_votes_spec (g : Game) (r : ClientId) :
    (g.gameInfoFor r).votes = tailoredVotesSpec g r := by
  show g.tailoredVotes r = tailoredVotesSpec g r
  unfold Game.tailoredVotes tailoredVotesSpec
  cases hst : g.getPlayerStatus r with
  | none => simp [hst]
  | some st =>
      cases st with
      | Dead => simp
      | Alive =>
          cases hcyc : g.cycle with
          | Day => simp
          | Night =>
              cases hrole : g.getPlayerRole r with
              | none => simp
              | some role =>
                  cases role with
                  | Mafia =>
                      rw [if_neg (show ¬(some PlayerStatus.Alive ≠ some PlayerStatus.Alive) by
                            simp),
                          if_neg (show ¬(Cycle.Night = Cycle.Day) by simp)]
                      exact filterMap_guard_eq_filter
                        (fun p => g.getPlayerAllegiance p.1 = Allegiance.Mafia) g.votes
                  | Doctor =>
                      rw [if_neg (show ¬(some PlayerStatus.Alive ≠ some PlayerStatus.Alive) by
                            simp),
                          if_neg (show ¬(Cycle.Night = Cycle.Day) by simp)]
                      exact filterMap_guard_eq_filter (fun p => p.1 = r) g.votes
                  | Detective =>
                      rw [if_neg (show ¬(some PlayerStatus.Alive ≠ some PlayerStatus.Alive) by
                            simp),
                          if_neg (show ¬(Cycle.Night = Cycle.Day) by simp)]
                      exact filterMap_guard_eq_filter (fun p => p.1 = r) g.votes

/-! ### Tally-counting helpers for the cycle-resolution claims -/

theorem length_filter_add_le {α : Type _} (p q : α → Bool)
    (h : ∀ a, ¬(p a = true ∧ q a = true)) :
    ∀ l : List α, (l.filter p).length + (l.filter q).length ≤ l.length := by
  intro l
  induction l with
  | nil => simp
  | cons x t ih =>
      by_cases hp : p x = true
      · have hq : ¬q x = true := fun hq => h x ⟨hp, hq⟩
        simp only [List.filter_cons, if_pos hp, if_neg hq, List.length_cons]
        omega
      · by_cases hq : q x = true
        · simp only [List.filter_cons, if_neg hp, if_pos hq, List.length_cons]
          omega
        · simp only [List.filter_cons, if_neg hp, if_neg hq, List.length_cons]
          omega

theorem dayVoteCount_pair_le (votes : List (ClientId × Option ClientId)) (t1 t2 : ClientId)
    (hne : t1 ≠ t2) :
    dayVoteCount votes t1 + dayVoteCount votes t2 ≤ votes.length := by
  unfold dayVoteCount
  apply length_filter_add_le
  rintro p ⟨h1, h2⟩
  simp only [decide_eq_true_eq] at h1 h2
  rw [h1] at h2
  exact hne (Option.some.inj h2)

theorem keys_nodup_filter {α β : Type _} {l : List (α × β)}
    (hs : (l.map Prod.fst).Nodup) (q : α × β → Bool) :
    ((l.filter q).map Prod.fst).Nodup :=
  List.Nodup.sublist (List.Sublist.map _ (List.filter_sublist l)) hs

theorem mem_alive_keys (g : Game) {v : ClientId}
    (hv : g.getPlayerStatus v = some PlayerStatus.Alive) :
    v ∈ (g.playerStatus.filter (fun p => p.2 = PlayerStatus.Alive)).map Prod.fst := by
  have hmem : (v, PlayerStatus.Alive) ∈ g.playerStatus := mem_of_alookup_eq_some hv
  exact List.mem_map.2 ⟨(v, .Alive), List.mem_filter.2 ⟨hmem, by simp⟩, rfl⟩

theorem numAlive_eq_keys (g : Game) (hstat : (g.playerStatus.map Prod.fst).Nodup) :
    g.numAlive =
      ((g.playerStatus.filter (fun p => p.2 = PlayerStatus.Alive)).map Prod.fst).length := by
  have h := List.Nodup.dedup
    (keys_nodup_filter hstat (fun p => decide (p.2 = PlayerStatus.Alive)))
  show ((g.playerStatus.filter
    (fun p => decide (p.2 = PlayerStatus.Alive))).map Prod.fst).dedup.length = _
  rw [h]

theorem votes_length_le_numAlive (g : Game)
    (hkeys : (g.votes.map Prod.fst).Nodup)
    (hstat : (g.playerStatus.map Prod.fst).Nodup)
    (hvoters : ∀ p ∈ g.votes, g.getPlayerStatus p.1 = some PlayerStatus.Alive) :
    g.votes.length ≤ g.numAlive := by
  rw [numAlive_eq_keys g hstat]
  have hlen : g.votes.length = (g.votes.map Prod.fst).length := (List.length_map _ _).symm
  rw [hlen]
  refine (List.Nodup.subperm hkeys ?_).length_le
  intro v hv
  obtain ⟨p, hp, rfl⟩ := List.mem_map.1 hv
  exact mem_alive_keys g (hvoters p hp)

theorem dayMajority_unique (g : Game)
    (hkeys : (g.votes.map Prod.fst).Nodup)
    (hstat : (g.playerStatus.map Prod.fst).Nodup)
    (hvoters : ∀ p ∈ g.votes, g.getPlayerStatus p.1 = some PlayerStatus.Alive) :
    ∀ t1 t2, g.dayMajority t1 → g.dayMajority t2 → t1 = t2 := by
  intro t1 t2 h1 h2
  by_contra hne
  have hb := dayVoteCount_pair_le g.votes t1 t2 hne
  have hl := votes_length_le_numAlive g hkeys hstat hvoters
  unfold Game.dayMajority at h1 h2
  omega

theorem exists_vote_of_dayMajority (g : Game) {t : ClientId} (h : g.dayMajority t) :
    ∃ p ∈ g.votes, p.2 = some t := by
  unfold Game.dayMajority dayVoteCount at h
  have hpos : 0 < (g.votes.filter (fun p => p.2 = some t)).length := by omega
  have hnil : g.votes.filter (fun p => p.2 = some t) ≠ [] := by
    intro hnil
    rw [hnil] at hpos
    simp at hpos
  obtain ⟨p, hp⟩ := List.exists_mem_of_ne_nil _ hnil
  have hmem := List.mem_filter.1 hp
  exact ⟨p, hmem.1, by simpa using hmem.2⟩

theorem dayKillTarget_eq_some (g : Game)
    (hkeys : (g.votes.map Prod.fst).Nodup)
    (hstat : (g.playerStatus.map Prod.fst).Nodup)
    (hvoters : ∀ p ∈ g.votes, g.getPlayerStatus p.1 = some PlayerStatus.Alive)
    {t : ClientId} (hmaj : g.dayMajority t) : g.dayKillTarget = some t := by
  obtain ⟨p, hp, hpt⟩ := exists_vote_of_dayMajority g hmaj
  have hmem : t ∈ g.votes.filterMap Prod.snd :=
    List.mem_filterMap.2 ⟨p, hp, by rw [hpt]⟩
  have hsome : (g.dayKillTarget).isSome = true := by
    unfold Game.dayKillTarget
    rw [List.find?_isSome]
    exact ⟨t, hmem, by simpa [Game.dayMajority] using hmaj⟩
  obtain ⟨t', ht'⟩ := Option.isSome_iff_exists.1 hsome
  have hq : g.dayMajority t' := by
    have hpred := List.find?_some (by unfold Game.dayKillTarget at ht'; exact ht')
    simpa [Game.dayMajority] using hpred
  rw [ht', dayMajority_unique g hkeys hstat hvoters t' t hq hmaj]

theorem dayKillTarget_eq_none (g : Game) (h : ¬∃ t, g.dayMajority t) :
    g.dayKillTarget = none := by
  unfold Game.dayKillTarget
  rw [List.find?_eq_none]
  intro x hx
  simp only [decide_eq_true_eq]
  exact fun hmaj => h ⟨x, hmaj⟩

theorem alookup_map_setval_self [DecidableEq α] (k : α) (d : β) :
    ∀ l : List (α × β), (alookup k l).isSome = true →
      alookup k (l.map (fun p => if p.1 = k then (p.1, d) else p)) = some d := by
  intro l h
  induction l with
  | nil => cases h
  | cons p t ih =>
      rw [alookup_cons] at h
      rw [List.map_cons]
      by_cases hpk : p.1 = k
      · rw [if_pos hpk, alookup_cons, if_pos hpk]
      · rw [if_neg hpk] at h
        rw [if_neg hpk, alookup_cons, if_neg hpk]
        exact ih h

theorem terminalCheck_events_shape (g : Game) (evs : List Event) :
    ∃ tail, (g.terminalCheck evs).2 = evs ++ tail ∧
      ∀ e ∈ tail, (∃ m s, e = Event.GameWon m s) ∨ ∃ a b c d, e = Event.SetCycle a b c d := by
  unfold Game.terminalCheck
  split_ifs with h1 h2 h3
  · refine ⟨[.GameWon g.playerToRole .Villagers], rfl, ?_⟩
    intro e he
    rw [List.mem_singleton] at he
    subst he
    exact Or.inl ⟨_, _, rfl⟩
  · refine ⟨[.GameWon g.playerToRole .Mafia], rfl, ?_⟩
    intro e he
    rw [List.mem_singleton] at he
    subst he
    exact Or.inl ⟨_, _, rfl⟩
  · refine ⟨[.GameWon g.playerToRole .Mafia], rfl, ?_⟩
    intro e he
    rw [List.mem_singleton] at he
    subst he
    exact Or.inl ⟨_, _, rfl⟩
  · refine ⟨_, rfl, ?_⟩
    intro e he
    rw [List.mem_singleton] at he
    subst he
    exact Or.inr ⟨_, _, _, _, rfl⟩

theorem terminalCheck_status (g : Game) (evs : List Event) :
    (g.terminalCheck evs).1.playerStatus = g.playerStatus := by
  unfold Game.terminalCheck
  split_ifs <;> rfl

theorem mem_terminalCheck {e : Event} {evs : List Event} (g : Game) (he : e ∈ evs) :
    e ∈ (g.terminalCheck evs).2 := by
  obtain ⟨tail, heq, -⟩ := terminalCheck_events_shape g evs
  rw [heq]
  exact List.mem_append_left _ he

theorem endCycle_day (g : Game) (hw : g.winner = none) (hcyc : g.cycle = Cycle.Day) :
    g.endCycle = (g.dayResolve.1).terminalCheck g.dayResolve.2 := by
  unfold Game.endCycle
  rw [hw, hcyc]
  rfl

theorem endCycle_night (g : Game) (hw : g.winner = none) (hcyc : g.cycle = Cycle.Night) :
    g.endCycle = (g.nightResolve.1).terminalCheck g.nightResolve.2 := by
  unfold Game.endCycle
  rw [hw, hcyc]
  rfl

/-- C3: Day resolution kills exactly a strict-supermajority target (which
is necessarily unique) and emits `PlayerKilled`, or emits a public
`FailedVote` when no target has a strict supermajority. -/
theorem day_resolution_spec (g : Game)
    (hcyc : g.cycle = Cycle.Day) (hw : g.winner = none)
    (hkeys : (g.votes.map Prod.fst).Nodup)
    (hstat : (g.playerStatus.map Prod.fst).Nodup)
    (hvoters : ∀ p ∈ g.votes, g.getPlayerStatus p.1 = some PlayerStatus.Alive)
    (htargets : ∀ p ∈ g.votes, ∀ u, p.2 = some u →
      g.getPlayerStatus u = some PlayerStatus.Alive) :
    (∀ t1 t2, g.dayMajority t1 → g.dayMajority t2 → t1 = t2) ∧
    (∀ t, g.dayMajority t →
      Event.PlayerKilled t Cycle.Day (DAY_DEATH_MESSAGES.getD 0 "") ∈ (g.endCycle).2 ∧
      alookup t (g.endCycle).1.playerStatus = some PlayerStatus.Dead) ∧
    ((¬∃ t, g.dayMajority t) →
      Event.FailedVote Cycle.Day EventChannel.Public ∈ (g.endCycle).2) := by
  refine ⟨dayMajority_unique g hkeys hstat hvoters, ?_, ?_⟩
  · intro t hmaj
    have hfind := dayKillTarget_eq_some g hkeys hstat hvoters hmaj
    have hres : g.dayResolve =
        (g.setDead t, [Event.PlayerKilled t g.cycle (DAY_DEATH_MESSAGES.getD 0 "")]) := by
      unfold Game.dayResolve
      rw [hfind]
    rw [endCycle_day g hw hcyc, hres]
    constructor
    · apply mem_terminalCheck
      rw [hcyc] at *
      exact List.mem_singleton.2 rfl
    · rw [terminalCheck_status]
      obtain ⟨p, hp, hpt⟩ := exists_vote_of_dayMajority g hmaj
      have hst : (alookup t g.playerStatus).isSome = true := by
        have h2 := htargets p hp t hpt
        unfold Game.getPlayerStatus at h2
        rw [h2]
        rfl
      exact alookup_map_setval_self t PlayerStatus.Dead g.playerStatus hst
  · intro hne
    have hfind := dayKillTarget_eq_none g hne
    have hres : g.dayResolve = (g, [Event.FailedVote g.cycle EventChannel.Public]) := by
      unfold Game.dayResolve
      rw [hfind]
    rw [endCycle_day g hw hcyc, hres]
    apply mem_terminalCheck
    rw [hcyc]
    exact List.mem_singleton.2 rfl

/-- C3 witness: concrete application of `day_resolution_spec` where player
2 is lynched by strict supermajority. -/
theorem day_resolution_spec_witness :
    gDay.dayMajority 2 ∧
    (Event.PlayerKilled 2 Cycle.Day (DAY_DEATH_MESSAGES.getD 0 "") ∈ (gDay.endCycle).2 ∧
     alookup 2 (gDay.endCycle).1.playerStatus = some PlayerStatus.Dead) :=
  ⟨by decide,
   (day_resolution_spec gDay (by decide) (by decide) (by decide) (by decide) (by decide)
     (by decide)).2.1 2 (by decide)⟩

/-! ### Night-resolution helpers -/

theorem mafiaVoteCount_pair_le (g : Game) (t1 t2 : ClientId) (hne : t1 ≠ t2) :
    g.mafiaVoteCount t1 + g.mafiaVoteCount t2 ≤
      (g.votes.filter (fun p => g.getPlayerAllegiance p.1 = Allegiance.Mafia)).length := by
  unfold Game.mafiaVoteCount
  apply length_filter_add_le
  rintro p ⟨h1, h2⟩
  simp only [decide_eq_true_eq] at h1 h2
  rw [h1] at h2
  exact hne (Option.some.inj h2)

theorem mem_alive_mafia_keys (g : Game) {v : ClientId}
    (hv : g.getPlayerStatus v = some PlayerStatus.Alive)
    (hm : g.getPlayerAllegiance v = Allegiance.Mafia) :
    v ∈ (g.playerStatus.filter (fun p =>
      decide (p.2 = PlayerStatus.Alive) &&
        decide (g.getPlayerAllegiance p.1 = Allegiance.Mafia))).map Prod.fst := by
  have hmem : (v, PlayerStatus.Alive) ∈ g.playerStatus := mem_of_alookup_eq_some hv
  exact List.mem_map.2 ⟨(v, .Alive), List.mem_filter.2 ⟨hmem, by simp [hm]⟩, rfl⟩

theorem numAliveMafia_eq_keys (g : Game) (hstat : (g.playerStatus.map Prod.fst).Nodup) :
    g.numAliveMafia = ((g.playerStatus.filter (fun p =>
      decide (p.2 = PlayerStatus.Alive) &&
        decide (g.getPlayerAllegiance p.1 = Allegiance.Mafia))).map Prod.fst).length := by
  have h := List.Nodup.dedup (keys_nodup_filter hstat (fun p =>
    decide (p.2 = PlayerStatus.Alive) &&
      decide (g.getPlayerAllegiance p.1 = Allegiance.Mafia)))
  show ((g.playerStatus.filter (fun p =>
    decide (p.2 = PlayerStatus.Alive) &&
      decide (g.getPlayerAllegiance p.1 = Allegiance.Mafia))).map Prod.fst).dedup.length = _
  rw [h]

theorem mafia_votes_length_le (g : Game)
    (hkeys : (g.votes.map Prod.fst).Nodup)
    (hstat : (g.playerStatus.map Prod.fst).Nodup)
    (hvoters : ∀ p ∈ g.votes, g.getPlayerStatus p.1 = some PlayerStatus.Alive) :
    (g.votes.filter (fun p => g.getPlayerAllegiance p.1 = Allegiance.Mafia)).length ≤
      g.numAliveMafia := by
  rw [numAliveMafia_eq_keys g hstat]
  set mv := g.votes.filter (fun p => g.getPlayerAllegiance p.1 = Allegiance.Mafia) with hmv
  have hlen : mv.length = (mv.map Prod.fst).length := (List.length_map _ _).symm
  rw [hlen]
  refine (List.Nodup.subperm (keys_nodup_filter hkeys _) ?_).length_le
  intro v hv
  obtain ⟨p, hp, rfl⟩ := List.mem_map.1 hv
  have hpf := List.mem_filter.1 hp
  have hmafia : g.getPlayerAllegiance p.1 = Allegiance.Mafia := by
    simpa using hpf.2
  exact mem_alive_mafia_keys g (hvoters p hpf.1) hmafia

theorem mafiaMajority_unique (g : Game)
    (hkeys : (g.votes.map Prod.fst).Nodup)
    (hstat : (g.playerStatus.map Prod.fst).Nodup)
    (hvoters : ∀ p ∈ g.votes, g.getPlayerStatus p.1 = some PlayerStatus.Alive) :
    ∀ t1 t2, g.mafiaMajority t1 → g.mafiaMajority t2 → t1 = t2 := by
  intro t1 t2 h1 h2
  by_contra hne
  have hb := mafiaVoteCount_pair_le g t1 t2 hne
  have hl := mafia_votes_length_le g hkeys hstat hvoters
  unfold Game.mafiaMajority at h1 h2
  omega

theorem exists_mafia_vote_of_majority (g : Game) {t : ClientId} (h : g.mafiaMajority t) :
    ∃ p ∈ g.votes.filter (fun p => g.getPlayerAllegiance p.1 = Allegiance.Mafia),
      p.2 = some t := by
  unfold Game.mafiaMajority Game.mafiaVoteCount at h
  have hpos : 0 < ((g.votes.filter (fun p => g.getPlayerAllegiance p.1 = Allegiance.Mafia)).filter
      (fun p => p.2 = some t)).length := by omega
  have hnil : (g.votes.filter (fun p => g.getPlayerAllegiance p.1 = Allegiance.Mafia)).filter
      (fun p => p.2 = some t) ≠ [] := by
    intro hnil
    rw [hnil] at hpos
    simp at hpos
  obtain ⟨p, hp⟩ := List.exists_mem_of_ne_nil _ hnil
  have hmem := List.mem_filter.1 hp
  exact ⟨p, hmem.1, by simpa using hmem.2⟩

theorem nightKillTarget_eq_some (g : Game)
    (hkeys : (g.votes.map Prod.fst).Nodup)
    (hstat : (g.playerStatus.map Prod.fst).Nodup)
    (hvoters : ∀ p ∈ g.votes, g.getPlayerStatus p.1 = some PlayerStatus.Alive)
    {t : ClientId} (hmaj : g.mafiaMajority t) : g.nightKillTarget = some t := by
  obtain ⟨p, hp, hpt⟩ := exists_mafia_vote_of_majority g hmaj
  have hmem : t ∈ (g.votes.filter
      (fun p => g.getPlayerAllegiance p.1 = Allegiance.Mafia)).filterMap Prod.snd :=
    List.mem_filterMap.2 ⟨p, hp, by rw [hpt]⟩
  have hsome : (g.nightKillTarget).isSome = true := by
    unfold Game.nightKillTarget
    rw [List.find?_isSome]
    exact ⟨t, hmem, by simpa [Game.mafiaMajority] using hmaj⟩
  obtain ⟨t', ht'⟩ := Option.isSome_iff_exists.1 hsome
  have hq : g.mafiaMajority t' := by
    have hpred := List.find?_some (by unfold Game.nightKillTarget at ht'; exact ht')
    simpa [Game.mafiaMajority] using hpred
  rw [ht', mafiaMajority_unique g hkeys hstat hvoters t' t hq hmaj]

theorem nightKillTarget_eq_none (g : Game) (h : ¬∃ t, g.mafiaMajority t) :
    g.nightKillTarget = none := by
  unfold Game.nightKillTarget
  rw [List.find?_eq_none]
  intro x hx
  simp only [decide_eq_true_eq]
  exact fun hmaj => h ⟨x, hmaj⟩

theorem investigations_setDead (g : Game) (c : ClientId) :
    (g.setDead c).investigations = g.investigations := rfl

theorem investigations_shape (g : Game) :
    ∀ e ∈ g.investigations, ∃ a t al, e = Event.PlayerInvestigated a t al := by
  intro e he
  unfold Game.investigations at he
  obtain ⟨d, hd, hfd⟩ := List.mem_filterMap.1 he
  cases hv : (alookup d g.votes).join with
  | none => rw [hv] at hfd; simp at hfd
  | some u =>
      rw [hv] at hfd
      exact ⟨d, u, _, by simpa using hfd.symm⟩

theorem investigations_mem (g : Game) (a t : ClientId) (al : Allegiance) :
    Event.PlayerInvestigated a t al ∈ g.investigations ↔
      (a ∈ g.rolePlayers .Detective ∧ alookup a g.votes = some (some t) ∧
       al = g.getPlayerAllegiance t) := by
  unfold Game.investigations
  rw [List.mem_filterMap]
  constructor
  · rintro ⟨d, hd, hfd⟩
    cases hv : (alookup d g.votes).join with
    | none => rw [hv] at hfd; simp at hfd
    | some u =>
        rw [hv] at hfd
        simp only [Option.some.injEq, Event.PlayerInvestigated.injEq] at hfd
        obtain ⟨hda, hut, hal⟩ := hfd
        subst hda
        subst hut
        exact ⟨hd, Option.join_eq_some.1 hv, hal.symm⟩
  · rintro ⟨hd, hv, rfl⟩
    refine ⟨a, hd, ?_⟩
    have hj : (alookup a g.votes).join = some t := by
      rw [hv]
      rfl
    rw [hj]

theorem nightResolve_mem_investigated (g : Game) (a t : ClientId) (al : Allegiance) :
    Event.PlayerInvestigated a t al ∈ (g.nightResolve).2 ↔
      Event.PlayerInvestigated a t al ∈ g.investigations := by
  unfold Game.nightResolve
  cases hk : g.nightKillTarget with
  | none => simp
  | some m =>
      by_cases hp : m ∈ g.protectedPlayers
      · simp [hp]
      · simp [hp, investigations_setDead]

theorem terminalCheck_mem_investigated (g : Game) (evs : List Event)
    (a t : ClientId) (al : Allegiance) :
    Event.PlayerInvestigated a t al ∈ (g.terminalCheck evs).2 ↔
      Event.PlayerInvestigated a t al ∈ evs := by
  obtain ⟨tail, heq, hshape⟩ := terminalCheck_events_shape g evs
  rw [heq, List.mem_append]
  constructor
  · rintro (h | h)
    · exact h
    · rcases hshape _ h with ⟨m, sd, he⟩ | ⟨w, x, y, z, he⟩ <;> simp at he
  · exact fun h => Or.inl h

/-- C4: Night resolution: a unique mafia strict-supermajority target is
killed with a `PlayerKilled` event unless a Doctor voted for it, in which
case neither a kill nor a `FailedVote` happens and statuses are untouched;
with no mafia supermajority a Mafia-channel `FailedVote` is emitted. -/
theorem night_resolution_spec (g : Game)
    (hcyc : g.cycle = Cycle.Night) (hw : g.winner = none)
    (hkeys : (g.votes.map Prod.fst).Nodup)
    (hstat : (g.playerStatus.map Prod.fst).Nodup)
    (hvoters : ∀ p ∈ g.votes, g.getPlayerStatus p.1 = some PlayerStatus.Alive)
    (htargets : ∀ p ∈ g.votes, ∀ u, p.2 = some u →
      g.getPlayerStatus u = some PlayerStatus.Alive) :
    (∀ t1 t2, g.mafiaMajority t1 → g.mafiaMajority t2 → t1 = t2) ∧
    (∀ t, g.mafiaMajority t → t ∈ g.protectedPlayers →
      (∀ p c m, Event.PlayerKilled p c m ∉ (g.endCycle).2) ∧
      (∀ c ch, Event.FailedVote c ch ∉ (g.endCycle).2) ∧
      (g.endCycle).1.playerStatus = g.playerStatus) ∧
    (∀ t, g.mafiaMajority t → t ∉ g.protectedPlayers →
      Event.PlayerKilled t Cycle.Night (NIGHT_DEATH_MESSAGES.getD 0 "") ∈ (g.endCycle).2 ∧
      alookup t (g.endCycle).1.playerStatus = some PlayerStatus.Dead) ∧
    ((¬∃ t, g.mafiaMajority t) →
      Event.FailedVote Cycle.Night EventChannel.Mafia ∈ (g.endCycle).2) := by
  refine ⟨mafiaMajority_unique g hkeys hstat hvoters, ?_, ?_, ?_⟩
  · intro t hmaj hprot
    have hfind := nightKillTarget_eq_some g hkeys hstat hvoters hmaj
    have hres : g.nightResolve = (g, [] ++ g.investigations) := by
      unfold Game.nightResolve
      simp only [hfind]
      rw [if_pos hprot]
    rw [endCycle_night g hw hcyc, hres]
    obtain ⟨tail, htail, hshape⟩ := terminalCheck_events_shape g ([] ++ g.investigations)
    refine ⟨?_, ?_, terminalCheck_status g _⟩
    · intro p c m hmem
      rw [htail] at hmem
      rcases List.mem_append.1 hmem with h | h
      · rw [List.nil_append] at h
        obtain ⟨a, u, al, he⟩ := investigations_shape g _ h
        simp at he
      · rcases hshape _ h with ⟨mm, sd, he⟩ | ⟨w, x, y, z, he⟩ <;> simp at he
    · intro c ch hmem
      rw [htail] at hmem
      rcases List.mem_append.1 hmem with h | h
      · rw [List.nil_append] at h
        obtain ⟨a, u, al, he⟩ := investigations_shape g _ h
        simp at he
      · rcases hshape _ h with ⟨mm, sd, he⟩ | ⟨w, x, y, z, he⟩ <;> simp at he
  · intro t hmaj hprot
    have hfind := nightKillTarget_eq_some g hkeys hstat hvoters hmaj
    have hres : g.nightResolve = (g.setDead t,
        [Event.PlayerKilled t g.cycle (NIGHT_DEATH_MESSAGES.getD 0 "")] ++
          (g.setDead t).investigations) := by
      unfold Game.nightResolve
      simp only [hfind]
      rw [if_neg hprot]
    rw [endCycle_night g hw hcyc, hres]
    constructor
    · apply mem_terminalCheck
      rw [hcyc]
      exact List.mem_append_left _ (List.mem_singleton.2 rfl)
    · rw [terminalCheck_status]
      obtain ⟨p, hp, hpt⟩ := exists_mafia_vote_of_majority g hmaj
      have hst : (alookup t g.playerStatus).isSome = true := by
        have h2 := htargets p (List.mem_filter.1 hp).1 t hpt
        unfold Game.getPlayerStatus at h2
        rw [h2]
        rfl
      exact alookup_map_setval_self t PlayerStatus.Dead g.playerStatus hst
  · intro hne
    have hfind := nightKillTarget_eq_none g hne
    have hres : g.nightResolve =
        (g, [Event.FailedVote g.cycle EventChannel.Mafia] ++ g.investigations) := by
      unfold Game.nightResolve
      simp only [hfind]
    rw [endCycle_night g hw hcyc, hres]
    apply mem_terminalCheck
    rw [hcyc]
    exact List.mem_append_left _ (List.mem_singleton.2 rfl)

/-- C4 witness: concrete application of `night_resolution_spec` where the
mafia majority target 3 is unprotected and killed. -/
theorem night_resolution_spec_witness :
    gNight.mafiaMajority 3 ∧
    (Event.PlayerKilled 3 Cycle.Night (NIGHT_DEATH_MESSAGES.getD 0 "") ∈
       (gNight.endCycle).2 ∧
     alookup 3 (gNight.endCycle).1.playerStatus = some PlayerStatus.Dead) :=
  ⟨by decide,
   (night_resolution_spec gNight (by decide) (by decide) (by decide) (by decide)
     (by decide) (by decide)).2.2.1 3 (by decide) (by decide)⟩

/-- C5: during Night resolution a `PlayerInvestigated{actor, target,
allegiance}` event is emitted precisely for each alive Detective whose
recorded vote names an alive target, carrying the allegiance of the target. -/
theorem investigation_events_spec (g : Game)
    (hcyc : g.cycle = Cycle.Night) (hw : g.winner = none)
    (hvoters : ∀ p ∈ g.votes, g.getPlayerStatus p.1 = some PlayerStatus.Alive)
    (htargets : ∀ p ∈ g.votes, ∀ u, p.2 = some u →
      g.getPlayerStatus u = some PlayerStatus.Alive)
    (hdet1 : ∀ d ∈ g.rolePlayers SpecialRole.Detective,
      g.getPlayerRole d = some SpecialRole.Detective)
    (hdet2 : ∀ p ∈ g.playerToRole, p.2 = SpecialRole.Detective →
      p.1 ∈ g.rolePlayers SpecialRole.Detective) :
    ∀ a t al, Event.PlayerInvestigated a t al ∈ (g.endCycle).2 ↔
      (g.getPlayerRole a = some SpecialRole.Detective ∧
       g.getPlayerStatus a = some PlayerStatus.Alive ∧
       alookup a g.votes = some (some t) ∧
       g.getPlayerStatus t = some PlayerStatus.Alive ∧
       al = g.getPlayerAllegiance t) := by
  intro a t al
  rw [endCycle_night g hw hcyc, terminalCheck_mem_investigated,
      nightResolve_mem_investigated, investigations_mem]
  constructor
  · rintro ⟨hd, hv, hal⟩
    have hmem : (a, some t) ∈ g.votes := mem_of_alookup_eq_some hv
    exact ⟨hdet1 a hd, hvoters _ hmem, hv, htargets _ hmem t rfl, hal⟩
  · rintro ⟨hrole, hsta, hv, hstt, hal⟩
    refine ⟨?_, hv, hal⟩
    have hmem : (a, SpecialRole.Detective) ∈ g.playerToRole := by
      apply mem_of_alookup_eq_some
      unfold Game.getPlayerRole at hrole
      exact hrole
    exact hdet2 (a, .Detective) hmem rfl

/-- C5 witness: concrete application of `investigation_events_spec` for
the Detective 2 investigating the Mafia player 0. -/
theorem investigation_events_spec_witness :
    Event.PlayerInvestigated 2 0 Allegiance.Mafia ∈ (gNight.endCycle).2 ↔
      (gNight.getPlayerRole 2 = some SpecialRole.Detective ∧
       gNight.getPlayerStatus 2 = some PlayerStatus.Alive ∧
       alookup 2 gNight.votes = some (some 0) ∧
       gNight.getPlayerStatus 0 = some PlayerStatus.Alive ∧
       Allegiance.Mafia = gNight.getPlayerAllegiance 0) :=
  (investigation_events_spec gNight (by decide) (by decide) (by decide) (by decide)
    (by decide) (by decide)) 2 0 Allegiance.Mafia

/-! ### C1: concrete reconnect states -/

/-- Builder for concrete `Client` records. -/
def mkClient (nm : String) (i : ClientId) (tok : SessionToken) (la : Nat)
    (disc : Bool) (inb : List Event) : Client where
  inbox := inb
  name := nm
  id := i
  sessionToken := tok
  lastActive := la
  disconnected := disc

/-- Registry holding the single client "bob" (id 0), currently
disconnected, whose session token 10 is still in the token index. -/
def c1Pre : ClientState where
  clients := [(0, mkClient "bob" 0 10 0 true [])]
  clientNameToId := [("bob", 0)]
  sessionTokenToId := [(10, 0)]
  claimedIds := [0]

/-- The registry after "bob" reconnects at time 5 with fresh token 11. -/
def c1Post : ClientState where
  clients := [(0, mkClient "bob" 0 11 5 false [])]
  clientNameToId := [("bob", 0)]
  sessionTokenToId := [(10, 0)]
  claimedIds := [0]

/-- The registry after the stale token 10 successfully authenticates at
time 6. -/
def c1PostAuth : ClientState where
  clients := [(0, mkClient "bob" 0 11 6 false [])]
  clientNameToId := [("bob", 0)]
  sessionTokenToId := [(10, 0)]
  claimedIds := [0]

/-- C1: evaluating `connect_client` on a disconnected client shows the
token index is never updated: the freshly issued token 11 does NOT
authenticate (`InvalidSessionToken`), while the pre-disconnect token 10
still authenticates, contradicting the claimed rotation. -/
theorem reconnect_token_rotation_code_bug :
    c1Pre.connectClient "bob" 11 5 = .ok (c1Post, 0, 11) ∧
    c1Post.authClient 11 6 = .err (.InvalidSessionToken 11) ∧
    c1Post.authClient 10 6 = .ok (0, c1PostAuth) := by
  refine ⟨?_, ?_, ?_⟩ <;> rfl

/-! ### C9: registry inbox invariant -/

theorem alookup_map_fn [DecidableEq α] (k : α) (f : α → β → β) :
    ∀ l : List (α × β),
      alookup k (l.map (fun p => (p.1, f p.1 p.2))) = (alookup k l).map (f k) := by
  intro l
  induction l with
  | nil => rfl
  | cons x t ih =>
      rw [List.map_cons, alookup_cons, alookup_cons]
      by_cases hx : x.1 = k
      · subst hx
        simp
      · rw [if_neg hx, if_neg hx]
        exact ih

theorem reachable_inbox_invariant {st : ClientState} (hr : Reachable st) :
    ∀ p ∈ st.clients, p.2.disconnected = true → p.2.inbox = [] := by
  induction hr with
  | init => intro p hp _; cases hp
  | connect st st' n tok tok' now cid hr heq ih =>
      unfold ClientState.connectClient at heq
      split at heq
      · split at heq
        · exact Outcome.noConfusion heq
        · rename_i client hclient
          split at heq
          · exact Outcome.noConfusion heq
          · simp only [Outcome.ok.injEq, Prod.mk.injEq] at heq
            obtain ⟨hst, hcid, htok⟩ := heq
            subst hst
            intro p hp hd
            rcases mem_ainsert hp with hpe | hpm
            · subst hpe
              simp at hd
            · exact ih p hpm hd
      · split at heq
        · exact Outcome.noConfusion heq
        · simp only [Outcome.ok.injEq, Prod.mk.injEq] at heq
          obtain ⟨hst, hcid, htok⟩ := heq
          subst hst
          intro p hp hd
          rcases mem_ainsert hp with hpe | hpm
          · subst hpe
            simp at hd
          · exact ih p hpm hd
  | disconnect st st' cid hr heq ih =>
      unfold ClientState.disconnectClient at heq
      split at heq
      · exact Outcome.noConfusion heq
      · rename_i client hclient
        split at heq
        · exact Outcome.noConfusion heq
        · simp only [Outcome.ok.injEq] at heq
          subst heq
          intro p hp hd
          rcases mem_ainsert hp with hpe | hpm
          · subst hpe
            rfl
          · exact ih p hpm hd
  | auth st st' tok now cid hr heq ih =>
      unfold ClientState.authClient at heq
      split at heq
      · exact Outcome.noConfusion heq
      · rename_i cid0 htokidx
        split at heq
        · exact Outcome.noConfusion heq
        · rename_i client hclient
          split at heq
          · exact Outcome.noConfusion heq
          · rename_i hdisc
            simp only [Outcome.ok.injEq, Prod.mk.injEq] at heq
            obtain ⟨hcid, hst⟩ := heq
            subst hst
            intro p hp hd
            rcases mem_ainsert hp with hpe | hpm
            · subst hpe
              simp at hd
              exact absurd hd hdisc
            · exact ih p hpm hd
  | purge st now maxI hr ih =>
      intro p hp hd
      exact ih p (List.mem_of_mem_filter hp) hd
  | send st recips e hr ih =>
      intro p hp hd
      unfold ClientState.sendEvent at hp
      obtain ⟨q, hq, hfq⟩ := List.mem_map.1 hp
      subst hfq
      unfold sendUpdate at hd ⊢
      by_cases hc : ((q.1 ∈ recips : Bool) && !q.2.disconnected) = true
      · rw [if_pos hc] at hd ⊢
        simp only at hd
        simp [hd] at hc
      · rw [if_neg hc] at hd ⊢
        exact ih q hq hd
  | take st cid hr ih =>
      intro p hp hd
      unfold ClientState.takeEvents at hp
      split at hp
      · exact ih p hp hd
      · rename_i client hclient
        rcases mem_ainsert hp with hpe | hpm
        · subst hpe
          rfl
        · exact ih p hpm hd

/-- A sequence of `send_event` operations, as fanned out by the facade
after a reconnect. -/
def applySends (st : ClientState) (sends : List (List ClientId × Event)) : ClientState :=
  sends.foldl (fun acc sd => acc.sendEvent sd.1 sd.2) st

theorem alookup_sendEvent (st : ClientState) (recips : List ClientId) (e : Event)
    (cid : ClientId) :
    alookup cid (st.sendEvent recips e).clients =
      (alookup cid st.clients).map (sendUpdate recips e cid) := by
  unfold ClientState.sendEvent
  exact alookup_map_fn cid (sendUpdate recips e) st.clients

theorem applySends_inbox :
    ∀ (sends : List (List ClientId × Event)) (st : ClientState) (cid : ClientId)
      (cl : Client),
      alookup cid st.clients = some cl → cl.disconnected = false →
      alookup cid (applySends st sends).clients =
        some { cl with inbox :=
          cl.inbox ++ (sends.filter (fun sd => cid ∈ sd.1)).map Prod.snd } := by
  intro sends
  induction sends with
  | nil =>
      intro st cid cl h hd
      unfold applySends
      rw [List.foldl_nil, h]
      simp
  | cons sd rest ih =>
      intro st cid cl h hd
      show alookup cid (applySends (st.sendEvent sd.1 sd.2) rest).clients = _
      have hstep : alookup cid (st.sendEvent sd.1 sd.2).clients =
          some (sendUpdate sd.1 sd.2 cid cl) := by
        rw [alookup_sendEvent, h]
        rfl
      by_cases hm : ((cid ∈ sd.1 : Bool)) = true
      · have hupd : sendUpdate sd.1 sd.2 cid cl = { cl with inbox := cl.inbox ++ [sd.2] } := by
          unfold sendUpdate
          rw [hd]
          simp [hm]
        rw [hupd] at hstep
        have hres := ih (st.sendEvent sd.1 sd.2) cid _ hstep hd
        rw [hres]
        simp [List.filter_cons, hm, List.append_assoc]
      · have hupd : sendUpdate sd.1 sd.2 cid cl = cl := by
          unfold sendUpdate
          simp [hm]
        rw [hupd] at hstep
        rw [ih _ cid cl hstep hd]
        simp [List.filter_cons, hm]

/-- C9: in every reachable registry state a disconnected client has an
empty inbox, and after any successful (re)connect the first `take_events` for
that client returns exactly the events addressed to it by sends performed
after the reconnect: nothing queued before the disconnect is replayed. -/
theorem disconnected_inbox_empty_spec (st : ClientState) (hr : Reachable st) :
    (∀ p ∈ st.clients, p.2.disconnected = true → p.2.inbox = []) ∧
    (∀ n tok now st' cid tok', st.connectClient n tok now = .ok (st', cid, tok') →
      ∀ sends : List (List ClientId × Event),
        (ClientState.takeEvents (applySends st' sends) cid).1 =
          (sends.filter (fun sd => cid ∈ sd.1)).map Prod.snd) := by
  have hinv := reachable_inbox_invariant hr
  refine ⟨hinv, ?_⟩
  intro n tok now st' cid tok' heq sends
  have hcl : ∃ cl : Client, alookup cid st'.clients = some cl ∧
      cl.inbox = [] ∧ cl.disconnected = false := by
    unfold ClientState.connectClient at heq
    split at heq
    · rename_i cid0 hn
      split at heq
      · exact Outcome.noConfusion heq
      · rename_i client hclient
        split at heq
        · exact Outcome.noConfusion heq
        · rename_i hdisc
          simp only [Outcome.ok.injEq, Prod.mk.injEq] at heq
          obtain ⟨hst, hcid, htok⟩ := heq
          subst hst
          subst hcid
          refine ⟨_, alookup_ainsert_self _ _ _, ?_, rfl⟩
          have hdt : client.disconnected = true := by
            simpa using hdisc
          exact hinv (cid0, client) (mem_of_alookup_eq_some hclient) hdt
    · rename_i hn
      split at heq
      · exact Outcome.noConfusion heq
      · rename_i id hfind
        simp only [Outcome.ok.injEq, Prod.mk.injEq] at heq
        obtain ⟨hst, hcid, htok⟩ := heq
        subst hst
        subst hcid
        exact ⟨_, alookup_ainsert_self _ _ _, rfl, rfl⟩
  obtain ⟨cl, hcl1, hcl2, hcl3⟩ := hcl
  have hsends := applySends_inbox sends st' cid cl hcl1 hcl3
  unfold ClientState.takeEvents
  rw [hsends]
  simp [hcl2]

/-- Registry obtained by connecting "alice" (token 5) to the empty
registry. -/
def c9Post : ClientState where
  clients := [(0, mkClient "alice" 0 5 0 false [])]
  clientNameToId := [("alice", 0)]
  sessionTokenToId := [(5, 0)]
  claimedIds := [0]

/-- C9 witness: concrete application of `disconnected_inbox_empty_spec`
from the initial registry. -/
theorem disconnected_inbox_empty_spec_witness :
    (ClientState.takeEvents
      (applySends c9Post [([0], Event.EndGame), ([1], Event.EndGame)]) 0).1 =
      ([([0], Event.EndGame), ([1], Event.EndGame)].filter
        (fun sd => (0 : ClientId) ∈ sd.1)).map Prod.snd :=
  (disconnected_inbox_empty_spec ClientState.new Reachable.init).2 "alice" 5 0 c9Post 0 5
    (by rfl) [([0], Event.EndGame), ([1], Event.EndGame)]

/-! ### C10: facade `cast_vote` on a completed game -/

/-- Facade counterexample state: one connected client (token 5, last
active at 0) and a finished game. -/
def c10Inner : MafiaGameServerInner where
  config := { maxClientInactiveTime := 100, randomizeDeathMessage := false }
  clients := c9Post
  activeGame := some gWon

/-- `c10Inner` after the token-5 client authenticates at time 7. -/
def c10Clients : ClientState where
  clients := [(0, mkClient "alice" 0 5 7 false [])]
  clientNameToId := [("alice", 0)]
  sessionTokenToId := [(5, 0)]
  claimedIds := [0]

/-- `c10Inner` with the `last_active` refresh applied. -/
def c10InnerAfter : MafiaGameServerInner where
  config := { maxClientInactiveTime := 100, randomizeDeathMessage := false }
  clients := c10Clients
  activeGame := some gWon

/-- C10 counterexample: the facade `cast_vote` on a won game does return
`NoGameInProgress`, but the registry is NOT left unchanged — the
`last_active` field of the authenticated client is refreshed before the
game check. -/
theorem facade_cast_vote_counterexample :
    MafiaGameServer.castVote c10Inner (fun _ => "") 7 5 none =
      .ok (c10InnerAfter, some .NoGameInProgress) ∧
    c10InnerAfter ≠ c10Inner := by
  constructor
  · rfl
  · intro h
    have h2 := congrArg
      (fun i : MafiaGameServerInner =>
        (alookup 0 i.clients.clients).elim 0 Client.lastActive) h
    simp [c10InnerAfter, c10Inner, c10Clients, c9Post, mkClient, alookup] at h2

/-- C10 amended: with a valid token of a connected client and a game whose
winner is set, the facade returns `NoGameInProgress` (never the engine
`InvalidVote` error), and the only state change is the `last_active`
refresh of the client performed by authentication. -/
theorem facade_cast_vote_amended (inner : MafiaGameServerInner) (pick : Cycle → String)
    (now : Nat) (tok : SessionToken) (target : Option ClientId)
    (cid : ClientId) (cs' : ClientState) (g : Game)
    (hauth : inner.clients.authClient tok now = .ok (cid, cs'))
    (hgame : inner.activeGame = some g)
    (hwin : g.winner.isSome = true) :
    MafiaGameServer.castVote inner pick now tok target =
      .ok ({ inner with clients := cs' }, some .NoGameInProgress) := by
  have h2 : ({ inner with clients := cs' } : MafiaGameServerInner).getActiveGame =
      .err .NoGameInProgress := by
    unfold MafiaGameServerInner.getActiveGame
    simp only [hgame, hwin]
    rfl
  unfold MafiaGameServer.castVote
  rw [hauth]
  simp only [h2]

/-- C10 witness: concrete application of `facade_cast_vote_amended`. -/
theorem facade_cast_vote_amended_witness :
    MafiaGameServer.castVote c10Inner (fun _ => "") 7 5 (some 1) =
      .ok ({ c10Inner with clients := c10Clients }, some .NoGameInProgress) :=
  facade_cast_vote_amended c10Inner (fun _ => "") 7 5 (some 1) 0 c10Clients gWon
    (by rfl) (by rfl) (by rfl)

end Mafia